import Mathlib

/-!
Verification of the command execution bridge of the gsoc2-cli wrapper
(`js/helper.js`): option serialization (`serializeOptions`, `prepareCommand`),
binary-path resolution (`getDistributionForThisPlatform`, `getBinaryPath`,
`getPath`) and process execution (`execute`).  JavaScript values are shallowly
embedded as `JSValue`; JavaScript objects used as maps become association
lists in insertion order (JS string-keyed objects iterate in insertion order).
-/

/-- A JavaScript runtime value, restricted to the shapes the bridge handles:
`undefined`, `null`, booleans, (integer) numbers, strings and arrays. -/
inductive JSValue where
  | undefined
  | null
  | bool (b : Bool)
  | num (n : Int)
  | str (s : String)
  | arr (elems : List JSValue)
deriving Repr

/-- JavaScript truthiness: `undefined`, `null`, `false`, `0` and `""` are
falsy; every other embedded value (including every array) is truthy. -/
def jsTruthy : JSValue → Bool
  | .undefined => false
  | .null => false
  | .bool b => b
  | .num n => !(n == 0)
  | .str s => !(s == "")
  | .arr _ => true

/-- The `paramValue === undefined || paramValue === null` test. -/
def isNullish : JSValue → Bool
  | .undefined => true
  | .null => true
  | _ => false

/-- The `live === true` strict-equality test used by `execute`. -/
def jsStrictTrue : JSValue → Bool
  | .bool true => true
  | _ => false

mutual
/-- JavaScript `String(value)` on embedded values.  Arrays stringify by
joining their elements with `","` (as `Array.prototype.toString` does),
where `null` and `undefined` elements become the empty string. -/
def jsString : JSValue → String
  | .undefined => "undefined"
  | .null => "null"
  | .bool true => "true"
  | .bool false => "false"
  | .num n => toString n
  | .str s => s
  | .arr xs => jsArrJoin xs
termination_by v => (sizeOf v, 0)

/-- The `Array.prototype.join(",")` of embedded values. -/
def jsArrJoin : List JSValue → String
  | [] => ""
  | [v] => jsArrElem v
  | v :: vs => jsArrElem v ++ "," ++ jsArrJoin vs
termination_by vs => (sizeOf vs, 0)

/-- One element of an array join: `null`/`undefined` contribute `""`. -/
def jsArrElem : JSValue → String
  | .undefined => ""
  | .null => ""
  | v => jsString v
termination_by v => (sizeOf v, 1)
end

/-- Schema of one command line option (`{param, type, invertedParam}` in the
source).  `param`/`invertedParam` are `none` when the flag is not declared. -/
structure OptionSchema where
  param : Option String
  type : String
  invertedParam : Option String
deriving Repr

/-- Property access `options[option]` on a JavaScript object: the bound value, or
`undefined` when the key is absent. -/
def lookupOpt (options : List (String × JSValue)) (k : String) : JSValue :=
  match options.find? (fun kv => kv.1 == k) with
  | some kv => kv.2
  | none => .undefined

/-- The flag pushed into the output list: the declared string, or the
JavaScript `undefined` value when no flag is declared. -/
def optFlag : Option String → JSValue
  | some p => .str p
  | none => .undefined

/-- One level of `Array.prototype.concat` flattening: an array argument
contributes its elements, any other argument contributes itself. -/
def concatSpread : JSValue → List JSValue
  | .arr xs => xs
  | v => [v]

/-- One iteration of the `Object.keys(schema).reduce` body of
`serializeOptions` (source lines 199-237), acting on accumulator `acc`. -/
def serializeStep (options : List (String × JSValue)) (acc : List JSValue)
    (e : String × OptionSchema) : Except String (List JSValue) :=
  let paramValue := lookupOpt options e.1
  if isNullish paramValue then
    .ok acc
  else
    let paramType := e.2.type
    let paramName := e.2.param
    if paramType = "array" then
      match paramValue with
      | .arr xs =>
          .ok (acc ++ xs.foldl (fun a v => a ++ [optFlag paramName, .str (jsString v)]) [])
      | _ => .error (e.1 ++ " should be an array")
    else if paramType = "boolean" then
      match paramValue with
      | .bool b =>
          if b then
            match paramName with
            | some p => .ok (acc ++ [.str p])
            | none => .ok acc
          else
            match e.2.invertedParam with
            | some ip => .ok (acc ++ [.str ip])
            | none => .ok acc
      | _ => .error (e.1 ++ " should be a bool")
    else
      .ok (acc ++ concatSpread (optFlag paramName) ++ concatSpread paramValue)

/-- The function `serializeOptions(schema, options)` (source lines 198-238): a JS
`reduce` over the schema keys in insertion order, starting from `[]`;
a thrown schema validation error aborts the fold. -/
def serializeOptions (schema : List (String × OptionSchema))
    (options : List (String × JSValue)) : Except String (List JSValue) :=
  schema.foldlM (serializeStep options) []

/-- Tokens one option contributes according to the words of spec section 4.2:
skip absent values; `array` values contribute flattened
`[flag, stringified(element)]` pairs; `boolean` values contribute the declared
flag (`true`) or inverted flag (`false`); any other declared type contributes
`[flag, value]` with the value passed verbatim. -/
def specOptionTokens (name : String) (sch : OptionSchema) (v : JSValue) :
    Except String (List JSValue) :=
  if isNullish v then .ok []
  else if sch.type = "array" then
    match v with
    | .arr xs => .ok (xs.map (fun x => [optFlag sch.param, .str (jsString x)])).flatten
    | _ => .error (name ++ " should be an array")
  else if sch.type = "boolean" then
    match v with
    | .bool true =>
        .ok (match sch.param with | some p => [.str p] | none => [])
    | .bool false =>
        .ok (match sch.invertedParam with | some ip => [.str ip] | none => [])
    | _ => .error (name ++ " should be a bool")
  else
    .ok [optFlag sch.param, v]

/-- The reference serializer of spec section 4.2: schema entries in defined
order, each contributing its `specOptionTokens`. -/
def specSerializeOptions (schema : List (String × OptionSchema))
    (options : List (String × JSValue)) : Except String (List JSValue) :=
  match schema with
  | [] => .ok []
  | (name, sch) :: rest => do
      let ts ← specOptionTokens name sch (lookupOpt options name)
      let rs ← specSerializeOptions rest options
      return ts ++ rs

/-- Variant of `specOptionTokens` with the default branch amended to match JavaScript
`concat` semantics: an array value under a non-`array` declared type is
spread into its elements (one level) instead of being kept verbatim. -/
def specOptionTokensAmended (name : String) (sch : OptionSchema) (v : JSValue) :
    Except String (List JSValue) :=
  if isNullish v then .ok []
  else if sch.type = "array" then
    match v with
    | .arr xs => .ok (xs.map (fun x => [optFlag sch.param, .str (jsString x)])).flatten
    | _ => .error (name ++ " should be an array")
  else if sch.type = "boolean" then
    match v with
    | .bool true =>
        .ok (match sch.param with | some p => [.str p] | none => [])
    | .bool false =>
        .ok (match sch.invertedParam with | some ip => [.str ip] | none => [])
    | _ => .error (name ++ " should be a bool")
  else
    .ok ([optFlag sch.param] ++ concatSpread v)

/-- The amended reference serializer. -/
def specSerializeOptionsAmended (schema : List (String × OptionSchema))
    (options : List (String × JSValue)) : Except String (List JSValue) :=
  match schema with
  | [] => .ok []
  | (name, sch) :: rest => do
      let ts ← specOptionTokensAmended name sch (lookupOpt options name)
      let rs ← specSerializeOptionsAmended rest options
      return ts ++ rs

/-- One binary distribution (an entry of `BINARY_DISTRIBUTIONS`, source
lines 8-16): the companion package name and the executable subpath. -/
structure Distribution where
  packageName : String
  subpath : String
deriving Repr, DecidableEq

/-- The closed list of binary distributions (source lines 8-16). -/
def BINARY_DISTRIBUTIONS : List Distribution :=
  [⟨"@gsoc2/cli-darwin", "bin/gsoc2-cli"⟩,
   ⟨"@gsoc2/cli-linux-x64", "bin/gsoc2-cli"⟩,
   ⟨"@gsoc2/cli-linux-i686", "bin/gsoc2-cli"⟩,
   ⟨"@gsoc2/cli-linux-arm64", "bin/gsoc2-cli"⟩,
   ⟨"@gsoc2/cli-linux-arm", "bin/gsoc2-cli"⟩,
   ⟨"@gsoc2/cli-win32-x64", "bin/gsoc2-cli.exe"⟩,
   ⟨"@gsoc2/cli-win32-i686", "bin/gsoc2-cli.exe"⟩]

/-- Result of `getDistributionForThisPlatform`: `packageName` is `none`
exactly when the (OS, architecture) pair is unsupported. -/
structure PlatformDistribution where
  packageName : Option String
  subpath : String
deriving Repr, DecidableEq

/-- The function `getDistributionForThisPlatform` (source lines 35-86), as a function of
`os.platform()` and `os.arch()`.  The `subpath` switch maps `win32` to the
`.exe` subpath and `darwin`/`linux`/`freebsd` as well as the `default` case
to the plain subpath. -/
def getDistributionForThisPlatform (platform arch : String) : PlatformDistribution :=
  let packageName : Option String :=
    if platform = "darwin" then some "@gsoc2/cli-darwin"
    else if platform = "linux" ∨ platform = "freebsd" then
      if arch = "x64" then some "@gsoc2/cli-linux-x64"
      else if arch = "x86" ∨ arch = "ia32" then some "@gsoc2/cli-linux-i686"
      else if arch = "arm64" then some "@gsoc2/cli-linux-arm64"
      else if arch = "arm" then some "@gsoc2/cli-linux-arm"
      else none
    else if platform = "win32" then
      if arch = "x64" then some "@gsoc2/cli-win32-x64"
      else if arch = "x86" ∨ arch = "ia32" then some "@gsoc2/cli-win32-i686"
      else none
    else none
  let subpath : String :=
    if platform = "win32" then "bin/gsoc2-cli.exe" else "bin/gsoc2-cli"
  ⟨packageName, subpath⟩

/-- POSIX `path.resolve` on a part list whose first part is absolute:
join the parts and normalize `"."` and `".."` segments. -/
def pathResolve (parts : List String) : String :=
  let segs := (String.intercalate "/" parts).splitOn "/"
  let norm := segs.foldl (fun acc s =>
    if s = "" ∨ s = "." then acc
    else if s = ".." then acc.dropLast
    else acc ++ [s]) ([] : List String)
  "/" ++ String.intercalate "/" norm

/-- The ambient state `getBinaryPath`/`getPath` read: the
`GSOC2_BINARY_PATH` environment variable, the current platform and
architecture, `__dirname`, whether the fallback binary file exists
(`fs.existsSync`), and which `require.resolve(packageName/subpath)` lookups
succeed and what path they return. -/
structure ResolveEnv where
  gsoc2BinaryPath : Option String
  platform : String
  arch : String
  dirname : String
  fallbackExists : Bool
  resolves : String → String → Bool
  resolvedPath : String → String → String

/-- Truthiness of an environment variable: set and nonempty. -/
def truthyEnvVar : Option String → Bool
  | none => false
  | some s => !(s == "")

/-- The function `getFallbackBinaryPath` (source lines 27-33):
`path.resolve(__dirname, "..", "gsoc2-cli" + (win32 ? ".exe" : ""))`. -/
def getFallbackBinaryPath (env : ResolveEnv) : String :=
  pathResolve [env.dirname, "..",
    "gsoc2-cli" ++ (if env.platform = "win32" then ".exe" else "")]

/-- The errors binary-path resolution can throw. -/
inductive ResolveError where
  | unsupportedPlatform (message : String)
  | wrongPlatformInstalled (installed : String) (expected : String)
  | noBinaryInstalled
deriving Repr, DecidableEq

/-- The message of `throwUnsupportedPlatformError` (source lines 93-102),
enumerating the supported platforms. -/
def unsupportedPlatformMessage : String :=
  "Unsupported operating system or architecture! Gsoc2 CLI does not work on this architecture.\n\nGsoc2 CLI supports:\n- Darwin (macOS)\n- Linux and FreeBSD on x64, x86, ia32, arm64, and arm architectures\n- Windows x64, x86, and ia32 architectures"

/-- The error thrown by `throwUnsupportedPlatformError`. -/
def throwUnsupportedPlatformError : ResolveError :=
  .unsupportedPlatform unsupportedPlatformMessage

/-- The function `getBinaryPath` (source lines 110-155): environment override first,
then the platform-support check, then the fallback file, then
`require.resolve` of the companion package; on lookup failure, search
`BINARY_DISTRIBUTIONS` for another installed distribution to pick the
error flavor. -/
def getBinaryPath (env : ResolveEnv) : Except ResolveError String :=
  if truthyEnvVar env.gsoc2BinaryPath then
    .ok (env.gsoc2BinaryPath.getD "")
  else
    let d := getDistributionForThisPlatform env.platform env.arch
    match d.packageName with
    | none => .error throwUnsupportedPlatformError
    | some packageName =>
      if env.fallbackExists then
        .ok (getFallbackBinaryPath env)
      else if env.resolves packageName d.subpath then
        .ok (env.resolvedPath packageName d.subpath)
      else
        match BINARY_DISTRIBUTIONS.find?
            (fun b => env.resolves b.packageName b.subpath) with
        | some other => .error (.wrongPlatformInstalled other.packageName packageName)
        | none => .error .noBinaryInstalled

/-- The function `getPath` (source lines 256-258): the mocked path when one was set with
`mockBinaryPath`, otherwise `getBinaryPath()`.  The mock check is
`mockedBinaryPath !== undefined`, so it fires for any set value. -/
def getPath (mockedBinaryPath : Option String) (env : ResolveEnv) :
    Except ResolveError String :=
  match mockedBinaryPath with
  | some m => .ok m
  | none => getBinaryPath env

/-- A state where both the environment-level override and the test-only
substitution are set: `GSOC2_BINARY_PATH` points at `/env/gsoc2-cli`. -/
def envBothOverrides : ResolveEnv :=
  { gsoc2BinaryPath := some "/env/gsoc2-cli"
    platform := "linux"
    arch := "x64"
    dirname := "/proj/node_modules/@gsoc2/cli/js"
    fallbackExists := false
    resolves := fun _ _ => false
    resolvedPath := fun _ _ => "" }

/-- An unsupported platform (`sunos`) whose fallback binary file exists. -/
def envUnsupportedWithFallback : ResolveEnv :=
  { gsoc2BinaryPath := none
    platform := "sunos"
    arch := "x64"
    dirname := "/proj/node_modules/@gsoc2/cli/js"
    fallbackExists := true
    resolves := fun _ _ => false
    resolvedPath := fun _ _ => "" }

/-- Stdio mode for one stream of a spawned child process. -/
inductive StreamMode where
  | pipe
  | ignore
  | inherit
deriving Repr, DecidableEq

/-- The configuration object passed to `execute`: exactly the fields the
source reads (source lines 284-318).  Absent fields are `undefined`.
`headers` models the `Record<string, string>`-shaped object as an entry
list in insertion order (`none` when absent). -/
structure CliConfig where
  url : JSValue := .undefined
  authToken : JSValue := .undefined
  apiKey : JSValue := .undefined
  dsn : JSValue := .undefined
  org : JSValue := .undefined
  project : JSValue := .undefined
  vcsRemote : JSValue := .undefined
  customHeader : JSValue := .undefined
  headers : Option (List (String × JSValue)) := none

/-- The spread `{ ...process.env }`: the inherited environment, as JS string values. -/
def baseEnv (processEnv : List (String × String)) : List (String × JSValue) :=
  processEnv.map (fun kv => (kv.1, JSValue.str kv.2))

/-- JS object assignment `env[k] = v`: replace the binding if the key is
present, append it otherwise. -/
def setVar : List (String × JSValue) → String → JSValue → List (String × JSValue)
  | [], k, v => [(k, v)]
  | kv :: rest, k, v =>
      if kv.1 == k then (k, v) :: rest else kv :: setVar rest k v

/-- A guarded assignment `if (x) { env.K = x }`. -/
def condSet (env : List (String × JSValue)) (b : Bool) (k : String)
    (v : JSValue) : List (String × JSValue) :=
  if b then setVar env k v else env

/-- Property lookup `env[k]` on the environment object. -/
def envLookup (env : List (String × JSValue)) (k : String) : Option JSValue :=
  (env.find? (fun kv => kv.1 == k)).map (fun kv => kv.2)

/-- The child-process environment `execute` builds (source lines 285-312):
a copy of the process environment overlaid, under truthiness guards, with
`GSOC2_PROPERTIES` and the eight dedicated configuration variables. -/
def executeEnv (processEnv : List (String × String)) (configFile : JSValue)
    (config : CliConfig) : List (String × JSValue) :=
  let env := baseEnv processEnv
  let env := condSet env (jsTruthy configFile) "GSOC2_PROPERTIES" configFile
  let env := condSet env (jsTruthy config.url) "GSOC2_URL" config.url
  let env := condSet env (jsTruthy config.authToken) "GSOC2_AUTH_TOKEN" config.authToken
  let env := condSet env (jsTruthy config.apiKey) "GSOC2_API_KEY" config.apiKey
  let env := condSet env (jsTruthy config.dsn) "GSOC2_DSN" config.dsn
  let env := condSet env (jsTruthy config.org) "GSOC2_ORG" config.org
  let env := condSet env (jsTruthy config.project) "GSOC2_PROJECT" config.project
  let env := condSet env (jsTruthy config.vcsRemote) "GSOC2_VCS_REMOTE" config.vcsRemote
  condSet env (jsTruthy config.customHeader) "CUSTOM_HEADER" config.customHeader

/-- The environment-variable names `execute` may overlay. -/
def gsoc2EnvNames : List String :=
  ["GSOC2_PROPERTIES", "GSOC2_URL", "GSOC2_AUTH_TOKEN", "GSOC2_API_KEY",
   "GSOC2_DSN", "GSOC2_ORG", "GSOC2_PROJECT", "GSOC2_VCS_REMOTE",
   "CUSTOM_HEADER"]

/-- The recognized configuration fields paired with their dedicated
environment-variable names. -/
def recognizedEnvPairs (configFile : JSValue) (config : CliConfig) :
    List (String × JSValue) :=
  [("GSOC2_PROPERTIES", configFile), ("GSOC2_URL", config.url),
   ("GSOC2_AUTH_TOKEN", config.authToken), ("GSOC2_API_KEY", config.apiKey),
   ("GSOC2_DSN", config.dsn), ("GSOC2_ORG", config.org),
   ("GSOC2_PROJECT", config.project), ("GSOC2_VCS_REMOTE", config.vcsRemote),
   ("CUSTOM_HEADER", config.customHeader)]

/-- The tokens `Object.entries(config.headers).flatMap(([key, value]) => ["--header",
`key:value`])` (source lines 313-316). -/
def headerTokens (hs : List (String × JSValue)) : List String :=
  (hs.map (fun kv => ["--header", kv.1 ++ ":" ++ jsString kv.2])).flatten

/-- The argument list `execute` passes to the child (source lines 310-318):
header tokens are prepended only when `customHeader` is falsy and a
`headers` object is present. -/
def executeArgs (args : List String) (config : CliConfig) : List String :=
  if jsTruthy config.customHeader then args
  else
    match config.headers with
    | some hs => headerTokens hs ++ args
    | none => args

/-- The observable outcome of the operating system running the child
process: a spawn failure, or termination with an exit status and the text
the child wrote to standard output. -/
inductive ProcOutcome where
  | spawnFailed (osError : String)
  | exited (status : Int) (stdout : String)
deriving Repr, DecidableEq

/-- The error a buffered `execute` rejects with: the underlying OS error on
spawn failure, or an error carrying the exit status on nonzero exit. -/
inductive ExecError where
  | spawnFailure (osError : String)
  | exitFailure (status : Int)
deriving Repr, DecidableEq

/-- How the promise returned by `execute` settles. -/
inductive ExecResult where
  | resolvedOutput (stdout : String)
  | resolvedVoid
  | rejected (err : ExecError)
  | pending
deriving Repr, DecidableEq

/-- The settle logic of `execute` (source lines 319-339).  Live mode
(`live === true`, strict equality) resolves with no value on the `exit`
event and never settles on a spawn failure (the code listens only for
`exit`).  Otherwise `childProcess.execFile` — modeled as a primitive
producing a `ProcOutcome` — invokes the callback with a non-null error
exactly when the spawn failed or the exit status was nonzero, and the
callback rejects with that error or resolves with the captured standard
output verbatim. -/
def executeDispatch (live : JSValue) (outcome : ProcOutcome) : ExecResult :=
  if jsStrictTrue live then
    match outcome with
    | .exited _ _ => .resolvedVoid
    | .spawnFailed _ => .pending
  else
    match outcome with
    | .spawnFailed m => .rejected (.spawnFailure m)
    | .exited status out =>
        if status = 0 then .resolvedOutput out else .rejected (.exitFailure status)

/-- The stream configuration of a `childProcess.spawn` call. -/
structure SpawnRequest where
  args : List String
  stdinMode : StreamMode
  stdoutMode : StreamMode
  stderrMode : StreamMode
deriving Repr, DecidableEq

/-- The spawn call live mode makes (source lines 320-326):
`stdio: ["ignore", output, output]` with `output = silent ? "ignore" :
"inherit"`. -/
def liveSpawnRequest (args : List String) (silent : JSValue) : SpawnRequest :=
  let output := if jsTruthy silent then StreamMode.ignore else StreamMode.inherit
  ⟨args, .ignore, output, output⟩

/-- JavaScript `String.prototype.concat`/`Array.prototype.concat` dispatched on the
receiver, as `prepareCommand` uses it: an array receiver appends the
argument array's elements; a string receiver coerces the argument with
`String(...)` and concatenates; any other receiver has no `concat` method. -/
def jsConcat (command : JSValue) (ser : List JSValue) : Except String JSValue :=
  match command with
  | .arr xs => .ok (.arr (xs ++ ser))
  | .str s => .ok (.str (s ++ jsString (.arr ser)))
  | _ => .error "TypeError: command.concat is not a function"

/-- The function `prepareCommand(command, schema, options)` (source lines 248-250):
`command.concat(serializeOptions(schema || {}, options || {}))`. -/
def prepareCommand (command : JSValue)
    (schema : Option (List (String × OptionSchema)))
    (options : Option (List (String × JSValue))) : Except String JSValue :=
  match serializeOptions (schema.getD []) (options.getD []) with
  | .error e => .error e
  | .ok ser => jsConcat command ser

/-- The inherited environment used in the executor witnesses. -/
def peWitness : List (String × String) := [("PATH", "/usr/bin")]

/-- The spec's example config `{url: "https://x", authToken: "t"}`. -/
def cfgUrlToken : CliConfig := { url := .str "https://x", authToken := .str "t" }

/-- A config whose `url` is present but falsy (the empty string). -/
def cfgFalsyUrl : CliConfig := { url := .str "" }

/-- A config carrying both `customHeader` and a header mapping. -/
def cfgCustomHdr : CliConfig :=
  { customHeader := .str "h: 1", headers := some [("k", .str "v")] }

/-- A config carrying only a two-entry header mapping. -/
def cfgHdrOnly : CliConfig :=
  { headers := some [("k", .str "v"), ("k2", .str "v2")] }

/-- Helper fact: `concatSpread` never spreads a flag: a flag is a string or `undefined`,
never an array. -/
theorem concatSpread_optFlag (p : Option String) :
    concatSpread (optFlag p) = [optFlag p] := by
  cases p <;> rfl

/-- The inner `reduce` of the `array` branch equals the flattened list of
per-element pairs of the reference serializer. -/
theorem foldl_pairs_eq_flatten (p : JSValue) :
    ∀ (xs : List JSValue) (a : List JSValue),
    xs.foldl (fun a v => a ++ [p, .str (jsString v)]) a =
      a ++ (xs.map (fun v => [p, .str (jsString v)])).flatten := by
  intro xs
  induction xs with
  | nil => intro a; simp
  | cons x rest ih => intro a; simp [ih]

/-- One `reduce` iteration factors through its accumulator. -/
theorem serializeStep_append (options : List (String × JSValue))
    (acc : List JSValue) (e : String × OptionSchema) :
    serializeStep options acc e =
      (serializeStep options [] e).map (fun ts => acc ++ ts) := by
  unfold serializeStep
  by_cases h1 : isNullish (lookupOpt options e.1)
  · simp [h1, Except.map]
  · by_cases h2 : e.2.type = "array"
    · simp only [h1, h2, Bool.false_eq_true, if_false, if_true]
      cases lookupOpt options e.1 <;> simp [Except.map]
    · by_cases h3 : e.2.type = "boolean"
      · simp only [h1, h2, h3, Bool.false_eq_true, if_false, if_true]
        cases hv : lookupOpt options e.1 with
        | bool b =>
          cases b
          · cases e.2.invertedParam <;> simp [Except.map]
          · cases e.2.param <;> simp [Except.map]
        | undefined => simp [Except.map]
        | null => simp [Except.map]
        | num n => simp [Except.map]
        | str s => simp [Except.map]
        | arr xs => simp [Except.map]
      · simp [h1, h2, h3, Except.map]

/-- The whole `reduce` factors through its accumulator. -/
theorem serializeOptions_foldl (options : List (String × JSValue)) :
    ∀ (schema : List (String × OptionSchema)) (acc : List JSValue),
    schema.foldlM (serializeStep options) acc =
      (schema.foldlM (serializeStep options) []).map (fun ts => acc ++ ts) := by
  intro schema
  induction schema with
  | nil => intro acc; simp [List.foldlM, Except.map, pure, Except.pure]
  | cons e rest ih =>
    intro acc
    rw [List.foldlM_cons, List.foldlM_cons, serializeStep_append]
    cases h : serializeStep options [] e with
    | error m => simp [Except.map, Except.bind, bind]
    | ok ts =>
      simp only [Except.map, Except.bind, bind]
      rw [ih (acc ++ ts), ih ts]
      cases h2 : rest.foldlM (serializeStep options) [] <;>
        simp [Except.map, List.append_assoc]

/-- One option's contribution in the code equals the amended reference
contribution. -/
theorem serializeStep_eq_specAmended (options : List (String × JSValue))
    (e : String × OptionSchema) :
    serializeStep options [] e =
      specOptionTokensAmended e.1 e.2 (lookupOpt options e.1) := by
  unfold serializeStep specOptionTokensAmended
  by_cases h1 : isNullish (lookupOpt options e.1)
  · simp [h1]
  · by_cases h2 : e.2.type = "array"
    · simp only [h1, h2, Bool.false_eq_true, if_false, if_true]
      cases lookupOpt options e.1 <;> simp [foldl_pairs_eq_flatten]
    · by_cases h3 : e.2.type = "boolean"
      · simp only [h1, h2, h3, Bool.false_eq_true, if_false, if_true]
        cases hv : lookupOpt options e.1 with
        | bool b =>
          cases b
          · cases e.2.invertedParam <;> simp
          · cases e.2.param <;> simp
        | undefined => rfl
        | null => rfl
        | num n => rfl
        | str s => rfl
        | arr xs => rfl
      · simp [h1, h2, h3, concatSpread_optFlag]

/-- Claim C1 (corrected, counterexample): the claim's reference serializer
disagrees with `serializeOptions` on the schema `{x: {param: "--x", type:
"string"}}` with options `{x: ["a"]}`: the code's default branch passes the
value through JavaScript `concat`, which spreads the array into its elements
(`["--x", "a"]`), while the reference contributes the value verbatim
(`["--x", ["a"]]`). -/
theorem serializeOptions_ne_spec_on_array_value :
    serializeOptions [("x", ⟨some "--x", "string", none⟩)]
        [("x", .arr [.str "a"])] ≠
      specSerializeOptions [("x", ⟨some "--x", "string", none⟩)]
        [("x", .arr [.str "a"])] := by
  have h1 : serializeOptions [("x", ⟨some "--x", "string", none⟩)]
      [("x", .arr [.str "a"])] = .ok [.str "--x", .str "a"] := rfl
  have h2 : specSerializeOptions [("x", ⟨some "--x", "string", none⟩)]
      [("x", .arr [.str "a"])] = .ok [.str "--x", .arr [.str "a"]] := rfl
  rw [h1, h2]
  simp

/-- Claim C1 (amended): `serializeOptions(schema, options)` equals the
reference serializer of spec section 4.2 amended in its default branch to
JavaScript `concat` semantics: iterating schema entries in defined order,
nothing is contributed for `undefined`/`null` values; an `array`-typed option
contributes flattened `[flag, stringified(element)]` pairs and a non-array
value raises a schema validation error naming the option; a `boolean`-typed
option contributes `[flag]` for `true` (when declared) and `[invertedFlag]`
for `false` (when declared), a non-boolean value raising a schema validation
error; every other declared type contributes the flag followed by the value
passed verbatim and not stringified, except that an array value is spread
into its elements (one `concat` level). -/
theorem serializeOptions_eq_specAmended (schema : List (String × OptionSchema))
    (options : List (String × JSValue)) :
    serializeOptions schema options = specSerializeOptionsAmended schema options := by
  induction schema with
  | nil => rfl
  | cons e rest ih =>
    obtain ⟨name, sch⟩ := e
    have ihr : rest.foldlM (serializeStep options) [] =
        specSerializeOptionsAmended rest options := ih
    show ((name, sch) :: rest).foldlM (serializeStep options) [] = _
    rw [List.foldlM_cons,
      serializeStep_eq_specAmended options (name, sch)]
    unfold specSerializeOptionsAmended
    cases h : specOptionTokensAmended name sch (lookupOpt options name) with
    | error m => simp [Except.bind, bind]
    | ok ts =>
      simp only [Except.bind, bind]
      rw [serializeOptions_foldl options rest ts, ihr]
      cases h2 : specSerializeOptionsAmended rest options <;>
        simp [Except.map, pure, Except.pure]

/-- Claim C6 (confirmed): every supported (OS, architecture) pair maps to
the documented distribution table: darwin (any architecture) to the darwin
package; linux and freebsd crossed with x64, x86/ia32, arm64 and arm to the
four linux packages; win32 crossed with x64 and x86/ia32 to the two win32
packages; the subpath is `bin/gsoc2-cli.exe` on win32 and `bin/gsoc2-cli`
otherwise. -/
theorem getDistributionForThisPlatform_matches_table :
    (∀ arch, getDistributionForThisPlatform "darwin" arch =
      ⟨some "@gsoc2/cli-darwin", "bin/gsoc2-cli"⟩)
    ∧ getDistributionForThisPlatform "linux" "x64" =
      ⟨some "@gsoc2/cli-linux-x64", "bin/gsoc2-cli"⟩
    ∧ getDistributionForThisPlatform "linux" "x86" =
      ⟨some "@gsoc2/cli-linux-i686", "bin/gsoc2-cli"⟩
    ∧ getDistributionForThisPlatform "linux" "ia32" =
      ⟨some "@gsoc2/cli-linux-i686", "bin/gsoc2-cli"⟩
    ∧ getDistributionForThisPlatform "linux" "arm64" =
      ⟨some "@gsoc2/cli-linux-arm64", "bin/gsoc2-cli"⟩
    ∧ getDistributionForThisPlatform "linux" "arm" =
      ⟨some "@gsoc2/cli-linux-arm", "bin/gsoc2-cli"⟩
    ∧ getDistributionForThisPlatform "freebsd" "x64" =
      ⟨some "@gsoc2/cli-linux-x64", "bin/gsoc2-cli"⟩
    ∧ getDistributionForThisPlatform "freebsd" "x86" =
      ⟨some "@gsoc2/cli-linux-i686", "bin/gsoc2-cli"⟩
    ∧ getDistributionForThisPlatform "freebsd" "ia32" =
      ⟨some "@gsoc2/cli-linux-i686", "bin/gsoc2-cli"⟩
    ∧ getDistributionForThisPlatform "freebsd" "arm64" =
      ⟨some "@gsoc2/cli-linux-arm64", "bin/gsoc2-cli"⟩
    ∧ getDistributionForThisPlatform "freebsd" "arm" =
      ⟨some "@gsoc2/cli-linux-arm", "bin/gsoc2-cli"⟩
    ∧ getDistributionForThisPlatform "win32" "x64" =
      ⟨some "@gsoc2/cli-win32-x64", "bin/gsoc2-cli.exe"⟩
    ∧ getDistributionForThisPlatform "win32" "x86" =
      ⟨some "@gsoc2/cli-win32-i686", "bin/gsoc2-cli.exe"⟩
    ∧ getDistributionForThisPlatform "win32" "ia32" =
      ⟨some "@gsoc2/cli-win32-i686", "bin/gsoc2-cli.exe"⟩ :=
  ⟨fun _ => rfl, rfl, rfl, rfl, rfl, rfl, rfl, rfl, rfl, rfl, rfl, rfl, rfl, rfl⟩

/-- Claim C4 (corrected, counterexample): with both the environment-level
override (`GSOC2_BINARY_PATH = /env/gsoc2-cli`) and the test-only
substitution (`/mock/gsoc2-cli`) set, `getPath` returns the substitution,
not the environment-level override. -/
theorem getPath_mock_beats_env :
    truthyEnvVar envBothOverrides.gsoc2BinaryPath = true
    ∧ getPath (some "/mock/gsoc2-cli") envBothOverrides = .ok "/mock/gsoc2-cli"
    ∧ getPath (some "/mock/gsoc2-cli") envBothOverrides ≠ .ok "/env/gsoc2-cli" := by
  refine ⟨rfl, rfl, ?_⟩
  rw [show getPath (some "/mock/gsoc2-cli") envBothOverrides =
    .ok "/mock/gsoc2-cli" from rfl]
  simp

/-- Claim C4 (amended): the test-only substitution, when set, wins over
every other resolution step, the environment-level override included; the
environment-level override is returned verbatim only when the substitution
is unset. -/
theorem getPath_resolution_order (env : ResolveEnv) (m : String) :
    getPath (some m) env = .ok m
    ∧ (∀ s, env.gsoc2BinaryPath = some s → s ≠ "" → getPath none env = .ok s) := by
  refine ⟨rfl, fun s hs hne => ?_⟩
  simp [getPath, getBinaryPath, truthyEnvVar, hs, hne]

/-- Claim C4 (witness): instantiating the resolution-order theorem at the
double-override state. -/
theorem getPath_resolution_order_witness :
    getPath (some "/mock/gsoc2-cli") envBothOverrides = .ok "/mock/gsoc2-cli"
    ∧ getPath none envBothOverrides = .ok "/env/gsoc2-cli" :=
  ⟨(getPath_resolution_order envBothOverrides "/mock/gsoc2-cli").1,
   (getPath_resolution_order envBothOverrides "/mock/gsoc2-cli").2
     "/env/gsoc2-cli" rfl (by decide)⟩

/-- Claim C5 (corrected, counterexample): on an unsupported platform whose
fallback binary file exists, resolution does not return the fallback path:
the unsupported-platform error is raised before the fallback location is
consulted. -/
theorem getBinaryPath_unsupported_ignores_fallback :
    envUnsupportedWithFallback.fallbackExists = true
    ∧ getBinaryPath envUnsupportedWithFallback =
        .error throwUnsupportedPlatformError
    ∧ getBinaryPath envUnsupportedWithFallback ≠
        .ok (getFallbackBinaryPath envUnsupportedWithFallback) := by
  refine ⟨rfl, rfl, ?_⟩
  rw [show getBinaryPath envUnsupportedWithFallback =
    .error throwUnsupportedPlatformError from rfl]
  simp

/-- Claim C5 (amended): for every (OS, architecture) pair outside the
supported set, resolution fails with the `UnsupportedPlatform` error whose
message enumerates the supported list, and never attempts the
companion-package lookup (the conclusion holds for every `resolves`
oracle); steps 1-2 still apply — the test-only substitution and the
environment-level override each still resolve successfully — but the
fallback path does not: the failure is raised before the fallback location
is consulted (the conclusion holds even when `fallbackExists` is true). -/
theorem getBinaryPath_unsupported_platform (env : ResolveEnv)
    (h : (getDistributionForThisPlatform env.platform env.arch).packageName = none) :
    (∀ m, getPath (some m) env = .ok m)
    ∧ (∀ s, env.gsoc2BinaryPath = some s → s ≠ "" → getPath none env = .ok s)
    ∧ (truthyEnvVar env.gsoc2BinaryPath = false →
        getPath none env = .error throwUnsupportedPlatformError) := by
  refine ⟨fun m => rfl, fun s hs hne => ?_, fun ht => ?_⟩
  · simp [getPath, getBinaryPath, truthyEnvVar, hs, hne]
  · simp [getPath, getBinaryPath, ht, h]

/-- Claim C5 (witness): instantiating the unsupported-platform theorem at
the `sunos` state whose fallback file exists. -/
theorem getBinaryPath_unsupported_platform_witness :
    getPath none envUnsupportedWithFallback =
      .error throwUnsupportedPlatformError
    ∧ getPath (some "/mock/gsoc2-cli") envUnsupportedWithFallback =
      .ok "/mock/gsoc2-cli" :=
  ⟨(getBinaryPath_unsupported_platform envUnsupportedWithFallback rfl).2.2 rfl,
   (getBinaryPath_unsupported_platform envUnsupportedWithFallback rfl).1
     "/mock/gsoc2-cli"⟩

/-- Lookup after a JS object assignment, at the assigned key. -/
theorem envLookup_setVar_same (env : List (String × JSValue)) (k : String)
    (v : JSValue) : envLookup (setVar env k v) k = some v := by
  induction env with
  | nil => simp [setVar, envLookup]
  | cons kv rest ih =>
    by_cases hkv : kv.1 = k
    · simp [setVar, hkv, envLookup]
    · have hb : (kv.1 == k) = false := beq_eq_false_iff_ne.mpr hkv
      simp only [setVar, hb, Bool.false_eq_true, if_false]
      simp only [envLookup, List.find?, hb] at ih ⊢
      exact ih

/-- Lookup after a JS object assignment, at every other key. -/
theorem envLookup_setVar_other (env : List (String × JSValue)) (k k' : String)
    (v : JSValue) (h : k' ≠ k) :
    envLookup (setVar env k v) k' = envLookup env k' := by
  have hk : (k == k') = false := beq_eq_false_iff_ne.mpr (Ne.symm h)
  induction env with
  | nil => simp [setVar, envLookup, hk]
  | cons kv rest ih =>
    by_cases hkv : kv.1 = k
    · have hb : (kv.1 == k') = false := by rw [hkv]; exact hk
      simp [setVar, hkv, envLookup, List.find?, hk, hb]
    · have hb : (kv.1 == k) = false := beq_eq_false_iff_ne.mpr hkv
      simp only [setVar, hb, Bool.false_eq_true, if_false]
      simp only [envLookup, List.find?] at ih ⊢
      cases hh : (kv.1 == k') <;> simp [hh, ih]

/-- Lookup after a guarded assignment. -/
theorem envLookup_condSet (env : List (String × JSValue)) (b : Bool)
    (k k' : String) (v : JSValue) :
    envLookup (condSet env b k v) k' =
      if k' = k then (if b then some v else envLookup env k')
      else envLookup env k' := by
  by_cases h : k' = k
  · subst h
    cases b <;> simp [condSet, envLookup_setVar_same]
  · cases b <;> simp [condSet, envLookup_setVar_other _ _ _ _ h, h]

/-- Claim C7 (confirmed): the child environment is exactly a copy of the
process environment overlaid with the configuration-file variable and one
dedicated variable per recognized configuration field present in the
config — presence being the code's truthiness guards (`if (config.url)`,
see claim C10): a truthy field reads back as its own value, a falsy or
absent field leaves the inherited binding, and keys outside the recognized
variable names are never touched. -/
theorem executeEnv_exact_copy_overlay (pe : List (String × String))
    (cf : JSValue) (cfg : CliConfig) (k : String) :
    (k ∉ gsoc2EnvNames →
      envLookup (executeEnv pe cf cfg) k = envLookup (baseEnv pe) k)
    ∧ (∀ v, (k, v) ∈ recognizedEnvPairs cf cfg →
        envLookup (executeEnv pe cf cfg) k =
          if jsTruthy v then some v else envLookup (baseEnv pe) k) := by
  constructor
  · intro h
    simp only [gsoc2EnvNames, List.mem_cons, List.not_mem_nil, or_false,
      not_or] at h
    obtain ⟨h1, h2, h3, h4, h5, h6, h7, h8, h9⟩ := h
    simp [executeEnv, envLookup_condSet, h1, h2, h3, h4, h5, h6, h7, h8, h9]
  · intro v hv
    simp only [recognizedEnvPairs, List.mem_cons, List.not_mem_nil, or_false,
      Prod.mk.injEq] at hv
    rcases hv with hv | hv | hv | hv | hv | hv | hv | hv | hv <;>
      obtain ⟨rfl, rfl⟩ := hv <;>
      simp [executeEnv, envLookup_condSet]

/-- Claim C7 (witness): with `config = {url: "https://x", authToken: "t"}`
exactly the two corresponding variables are set, `GSOC2_API_KEY` stays
inherited (here: unset) and `PATH` is untouched. -/
theorem executeEnv_exact_copy_overlay_witness :
    envLookup (executeEnv peWitness .undefined cfgUrlToken) "GSOC2_URL" =
      some (.str "https://x")
    ∧ envLookup (executeEnv peWitness .undefined cfgUrlToken) "GSOC2_AUTH_TOKEN" =
      some (.str "t")
    ∧ envLookup (executeEnv peWitness .undefined cfgUrlToken) "GSOC2_API_KEY" =
      envLookup (baseEnv peWitness) "GSOC2_API_KEY"
    ∧ envLookup (executeEnv peWitness .undefined cfgUrlToken) "PATH" =
      envLookup (baseEnv peWitness) "PATH" := by
  refine ⟨?_, ?_, ?_, ?_⟩
  · have h := (executeEnv_exact_copy_overlay peWitness .undefined cfgUrlToken
      "GSOC2_URL").2 (.str "https://x") (by simp [recognizedEnvPairs, cfgUrlToken])
    simpa [jsTruthy] using h
  · have h := (executeEnv_exact_copy_overlay peWitness .undefined cfgUrlToken
      "GSOC2_AUTH_TOKEN").2 (.str "t") (by simp [recognizedEnvPairs, cfgUrlToken])
    simpa [jsTruthy] using h
  · have h := (executeEnv_exact_copy_overlay peWitness .undefined cfgUrlToken
      "GSOC2_API_KEY").2 .undefined (by simp [recognizedEnvPairs, cfgUrlToken])
    simpa [jsTruthy] using h
  · exact (executeEnv_exact_copy_overlay peWitness .undefined cfgUrlToken
      "PATH").1 (by simp [gsoc2EnvNames])

/-- Claim C10 (confirmed): presence of a recognized configuration field is
decided by JavaScript truthiness, not key existence: a falsy field value
(empty string, false, 0, null) makes `execute` behave exactly as if the
field were absent — no dedicated variable is placed, and for
`customHeader` the header prepending also behaves as with the field
absent; likewise a falsy `configFile` sets no `GSOC2_PROPERTIES`. -/
theorem falsy_config_fields_act_as_absent (pe : List (String × String))
    (cf : JSValue) (cfg : CliConfig) (args : List String) :
    (jsTruthy cf = false →
      executeEnv pe cf cfg = executeEnv pe .undefined cfg)
    ∧ (jsTruthy cfg.url = false →
      executeEnv pe cf cfg = executeEnv pe cf { cfg with url := .undefined })
    ∧ (jsTruthy cfg.authToken = false →
      executeEnv pe cf cfg = executeEnv pe cf { cfg with authToken := .undefined })
    ∧ (jsTruthy cfg.apiKey = false →
      executeEnv pe cf cfg = executeEnv pe cf { cfg with apiKey := .undefined })
    ∧ (jsTruthy cfg.dsn = false →
      executeEnv pe cf cfg = executeEnv pe cf { cfg with dsn := .undefined })
    ∧ (jsTruthy cfg.org = false →
      executeEnv pe cf cfg = executeEnv pe cf { cfg with org := .undefined })
    ∧ (jsTruthy cfg.project = false →
      executeEnv pe cf cfg = executeEnv pe cf { cfg with project := .undefined })
    ∧ (jsTruthy cfg.vcsRemote = false →
      executeEnv pe cf cfg = executeEnv pe cf { cfg with vcsRemote := .undefined })
    ∧ (jsTruthy cfg.customHeader = false →
      executeEnv pe cf cfg = executeEnv pe cf { cfg with customHeader := .undefined }
      ∧ executeArgs args cfg = executeArgs args { cfg with customHeader := .undefined }) := by
  refine ⟨fun h => ?_, fun h => ?_, fun h => ?_, fun h => ?_, fun h => ?_,
    fun h => ?_, fun h => ?_, fun h => ?_, fun h => ⟨?_, ?_⟩⟩ <;>
    simp [executeEnv, executeArgs, condSet, h,
      show jsTruthy JSValue.undefined = false from rfl]

/-- Claim C10 (witness): an empty-string `url` and an empty-string
`configFile` behave exactly as if absent. -/
theorem falsy_config_fields_act_as_absent_witness :
    executeEnv peWitness (.str "") cfgFalsyUrl =
      executeEnv peWitness .undefined cfgFalsyUrl
    ∧ executeEnv peWitness .undefined cfgFalsyUrl =
      executeEnv peWitness .undefined { cfgFalsyUrl with url := .undefined } :=
  ⟨(falsy_config_fields_act_as_absent peWitness (.str "") cfgFalsyUrl []).1
     (by decide),
   (falsy_config_fields_act_as_absent peWitness .undefined cfgFalsyUrl []).2.1
     (by decide)⟩

/-- Claim C8 (confirmed): a truthy `customHeader` takes effect as the
`CUSTOM_HEADER` variable and the header mapping contributes nothing to the
arguments; when only the header mapping is present, each entry contributes
the two tokens `--header` and `key:value`, prepended before the
caller-supplied arguments in the mapping's iteration order (the order of
`headerTokens`). -/
theorem customHeader_overrides_headers (pe : List (String × String))
    (cf : JSValue) (args : List String) (cfg : CliConfig) :
    (jsTruthy cfg.customHeader = true →
      envLookup (executeEnv pe cf cfg) "CUSTOM_HEADER" = some cfg.customHeader
      ∧ executeArgs args cfg = args)
    ∧ (jsTruthy cfg.customHeader = false →
      ∀ hs, cfg.headers = some hs →
        executeArgs args cfg = headerTokens hs ++ args) := by
  constructor
  · intro h
    constructor
    · simp [executeEnv, envLookup_condSet, h]
    · simp [executeArgs, h]
  · intro h hs hh
    simp [executeArgs, h, hh]

/-- Claim C8 (witness): with `customHeader` set the variable is placed and
no header tokens are prepended; with only a header mapping, its entries
are prepended in order. -/
theorem customHeader_overrides_headers_witness :
    envLookup (executeEnv peWitness .undefined cfgCustomHdr) "CUSTOM_HEADER" =
      some (.str "h: 1")
    ∧ executeArgs ["releases", "new"] cfgCustomHdr = ["releases", "new"]
    ∧ executeArgs ["releases", "new"] cfgHdrOnly =
      ["--header", "k:v", "--header", "k2:v2", "releases", "new"] := by
  refine ⟨?_, ?_, ?_⟩
  · exact ((customHeader_overrides_headers peWitness .undefined
      ["releases", "new"] cfgCustomHdr).1 (by decide)).1
  · exact ((customHeader_overrides_headers peWitness .undefined
      ["releases", "new"] cfgCustomHdr).1 (by decide)).2
  · have h := (customHeader_overrides_headers peWitness .undefined
      ["releases", "new"] cfgHdrOnly).2 (by decide)
      [("k", .str "v"), ("k2", .str "v2")] rfl
    simpa [headerTokens, jsString] using h

/-- A falsy `live` argument is in particular not strictly `true`. -/
theorem jsTruthy_false_not_strictTrue (live : JSValue)
    (h : jsTruthy live = false) : jsStrictTrue live = false := by
  cases live <;> simp_all [jsTruthy, jsStrictTrue]

/-- Claim C2 (confirmed): in buffered mode (`live` falsy) `execute` runs
the binary to completion (`childProcess.execFile`, modeled as a primitive
producing the process outcome; the code supplies it no input) and settles
as follows: exit status 0 resolves with the captured standard output
verbatim — the very string the process produced, untrimmed; a nonzero exit
status rejects with the error carrying that status; a spawn failure
rejects with the underlying OS error. -/
theorem execute_buffered_settles (live : JSValue) (out osErr : String)
    (status : Int) (h : jsTruthy live = false) :
    executeDispatch live (.exited 0 out) = .resolvedOutput out
    ∧ (status ≠ 0 →
        executeDispatch live (.exited status out) =
          .rejected (.exitFailure status))
    ∧ executeDispatch live (.spawnFailed osErr) =
        .rejected (.spawnFailure osErr) := by
  have hs : jsStrictTrue live = false := jsTruthy_false_not_strictTrue live h
  refine ⟨?_, fun hnz => ?_, ?_⟩
  · simp [executeDispatch, hs]
  · simp [executeDispatch, hs, hnz]
  · simp [executeDispatch, hs]

/-- Claim C2 (witness): a process exiting with status 2 causes a rejection
carrying 2; status 0 resolves with the exact multi-line output. -/
theorem execute_buffered_settles_witness :
    executeDispatch (.bool false) (.exited 0 "line1\nline2\n") =
      .resolvedOutput "line1\nline2\n"
    ∧ executeDispatch (.bool false) (.exited 2 "") =
      .rejected (.exitFailure 2)
    ∧ executeDispatch (.bool false) (.spawnFailed "spawn ENOENT") =
      .rejected (.spawnFailure "spawn ENOENT") :=
  ⟨(execute_buffered_settles (.bool false) "line1\nline2\n" "spawn ENOENT" 2 rfl).1,
   (execute_buffered_settles (.bool false) "" "spawn ENOENT" 2 rfl).2.1 (by decide),
   (execute_buffered_settles (.bool false) "" "spawn ENOENT" 2 rfl).2.2⟩

/-- Claim C3 (corrected, counterexample): `live` is compared with
`live === true`, not with truthiness: for the truthy value `1` the
buffered branch runs, and a process exiting with status 2 makes `execute`
reject — contradicting the claim that every truthy `live` resolves with no
value regardless of exit status. -/
theorem execute_truthy_live_rejects :
    jsTruthy (.num 1) = true
    ∧ executeDispatch (.num 1) (.exited 2 "") = .rejected (.exitFailure 2)
    ∧ executeDispatch (.num 1) (.exited 2 "") ≠ .resolvedVoid := by
  refine ⟨rfl, rfl, ?_⟩
  rw [show executeDispatch (.num 1) (.exited 2 "") =
    .rejected (.exitFailure 2) from rfl]
  simp

/-- Claim C3 (amended): for `live` strictly equal to boolean `true` (the
code's `live === true` test; any other truthy value falls through to the
buffered branch), `execute` spawns the binary with standard input closed
and standard output/error inherited when `silent` is falsy and discarded
when `silent` is truthy, and the promise resolves with no value once the
process exits, regardless of the exit status; live mode never rejects due
to process failure. -/
theorem execute_live_resolves_void (args : List String) (silent : JSValue)
    (status : Int) (out : String) (outcome : ProcOutcome) :
    executeDispatch (.bool true) (.exited status out) = .resolvedVoid
    ∧ (∀ e, executeDispatch (.bool true) outcome ≠ .rejected e)
    ∧ (liveSpawnRequest args silent).stdinMode = .ignore
    ∧ (jsTruthy silent = false →
        (liveSpawnRequest args silent).stdoutMode = .inherit
        ∧ (liveSpawnRequest args silent).stderrMode = .inherit)
    ∧ (jsTruthy silent = true →
        (liveSpawnRequest args silent).stdoutMode = .ignore
        ∧ (liveSpawnRequest args silent).stderrMode = .ignore) := by
  refine ⟨rfl, fun e => ?_, rfl, fun h => ?_, fun h => ?_⟩
  · cases outcome <;> simp [executeDispatch, jsStrictTrue]
  · constructor <;> simp [liveSpawnRequest, h]
  · constructor <;> simp [liveSpawnRequest, h]

/-- Claim C3 (witness): instantiating the live-mode theorem at a process
exiting with status 2, with both values of `silent`. -/
theorem execute_live_resolves_void_witness :
    executeDispatch (.bool true) (.exited 2 "") = .resolvedVoid
    ∧ (liveSpawnRequest ["x"] (.bool false)).stdoutMode = .inherit
    ∧ (liveSpawnRequest ["x"] (.bool true)).stdoutMode = .ignore :=
  ⟨(execute_live_resolves_void ["x"] (.bool false) 2 "" (.exited 2 "")).1,
   ((execute_live_resolves_void ["x"] (.bool false) 2 "" (.exited 2 "")).2.2.2.1
     rfl).1,
   ((execute_live_resolves_void ["x"] (.bool true) 2 "" (.exited 2 "")).2.2.2.2
     rfl).1⟩

/-- Claim C9 (code bug): `prepareCommand` returns the expected token list
for a token-sequence command — `prepareCommand(["releases","new"], schema,
{})` is exactly `["releases","new"]` — but for a literal string command,
which its own JSDoc declares (`@param {string} command`, `@returns
{string[]}`), `String.prototype.concat` coerces the serialized argument
array and returns the single comma-joined string `"releases--x,a"` instead
of a token list. -/
theorem prepareCommand_string_command_bug :
    prepareCommand (.arr [.str "releases", .str "new"])
        (some [("x", ⟨some "--x", "string", none⟩)]) (some []) =
      .ok (.arr [.str "releases", .str "new"])
    ∧ prepareCommand (.str "releases")
        (some [("x", ⟨some "--x", "string", none⟩)])
        (some [("x", .str "a")]) =
      .ok (.str "releases--x,a") := by
  constructor
  · rfl
  · have hser : serializeOptions [("x", ⟨some "--x", "string", none⟩)]
        [("x", .str "a")] = .ok [.str "--x", .str "a"] := rfl
    simp only [prepareCommand, Option.getD, hser, jsConcat]
    simp [jsString, jsArrJoin, jsArrElem]
